import Mathlib

/-!
Verification of the GeoJSON-to-polygons converter
(`src/utils/geojson-to-polygons.py`).

The script reads a feature collection, classifies each feature as a labeled
point or a simple polygon (validating structure with assertions), computes a
combined bounding box seeded from the first point, derives a per-axis
shift/scale transform, and prints one line per point followed by one block per
polygon.

Coordinates are embedded as rational numbers.  Every Python failure mode is
made explicit in the `Err` type: a failed assertion or missing key becomes
`Err.schemaError`, the `raise Exception(...)` for an unknown geometry type
becomes `Err.unsupportedGeometry` carrying the type name, the `points[0]`
lookup on an empty list becomes `Err.emptyInput`, indexing `v[0]`/`v[1]` on a
too short vertex becomes `Err.indexError`, and Python float division by zero
(which raises `ZeroDivisionError`) becomes `Err.zeroDivision`.
-/

deriving instance DecidableEq for Except

namespace GeoJson

/-- Constant `MAP_SIZE = 1000.` from the source. -/
def MAP_SIZE : ℚ := 1000

/-- Constant `MARGIN = 50.` from the source. -/
def MARGIN : ℚ := 50

/-- The geometry of an input feature: `geometry.type` together with
`geometry.coordinates`.  A point carries a flat coordinate list, a polygon a
list of rings, each ring a list of coordinate entries (arbitrary arity, as in
JSON).  Any other `type` string is kept verbatim. -/
inductive Geometry where
  | point (coordinates : List ℚ)
  | polygon (rings : List (List (List ℚ)))
  | other (typeName : String)
deriving DecidableEq

/-- An input feature: its geometry and the optional `properties.name` value
(`none` models a missing key). -/
structure Feature where
  geometry : Geometry
  name : Option String
deriving DecidableEq

/-- Failure modes of the script, one per Python exception path. -/
inductive Err where
  | schemaError
  | unsupportedGeometry (typeName : String)
  | emptyInput
  | indexError
  | zeroDivision
deriving DecidableEq

/-- Embedding of the subscripts `v[0]`, `v[1]` on a ring vertex: Python raises
`IndexError` when the entry has fewer than two components; any further
components are ignored. -/
def getV (v : List ℚ) : Except Err (ℚ × ℚ) :=
  match v with
  | x :: y :: _ => .ok (x, y)
  | _ => .error .indexError

/-- Embedding of the list comprehension
`[(v[0], v[1]) for v in outer_ring[:-1]]`: entries are converted left to
right, the first failure aborting. -/
def mapGetV : List (List ℚ) → Except Err (List (ℚ × ℚ))
  | [] => .ok []
  | v :: l =>
    match getV v with
    | .error e => .error e
    | .ok p =>
      match mapGetV l with
      | .error e => .error e
      | .ok ps => .ok (p :: ps)

/-- Classification of one feature, embedding the body of the `for feature`
loop: a `Point` must have exactly two coordinates and a name and yields
`(x, y, name)`; a `Polygon` must have exactly one ring of at least four
entries whose first and last entries are equal (full-entry comparison, as
Python list equality), and yields the ring vertices with the closing entry
dropped; any other geometry type raises, carrying the type name. -/
def classify (f : Feature) : Except Err ((ℚ × ℚ × String) ⊕ List (ℚ × ℚ)) :=
  match f.geometry with
  | .point coords =>
    match coords with
    | [x, y] =>
      match f.name with
      | some nm => .ok (.inl (x, y, nm))
      | none => .error .schemaError
    | _ => .error .schemaError
  | .polygon rings =>
    match rings with
    | [ring] =>
      if 4 ≤ ring.length then
        if ring.head? = ring.getLast? then
          match mapGetV ring.dropLast with
          | .error e => .error e
          | .ok vs => .ok (.inr vs)
        else .error .schemaError
      else .error .schemaError
    | _ => .error .schemaError
  | .other t => .error (.unsupportedGeometry t)

/-- The parsing loop: features are processed in order, the first failure
aborting the run; points and polygons are accumulated in feature order into
two separate lists. -/
def parseFeatures : List Feature → Except Err (List (ℚ × ℚ × String) × List (List (ℚ × ℚ)))
  | [] => .ok ([], [])
  | f :: fs =>
    match classify f with
    | .error e => .error e
    | .ok item =>
      match parseFeatures fs with
      | .error e => .error e
      | .ok (pts, polys) =>
        match item with
        | .inl p => .ok (p :: pts, polys)
        | .inr q => .ok (pts, q :: polys)

/-- The bounding box: `x_min, x_max, y_min, y_max`. -/
structure Box where
  xmin : ℚ
  xmax : ℚ
  ymin : ℚ
  ymax : ℚ
deriving DecidableEq

/-- One min/max update of the bounding box with a coordinate pair. -/
def boxStep (b : Box) (c : ℚ × ℚ) : Box :=
  ⟨min b.xmin c.1, max b.xmax c.1, min b.ymin c.2, max b.ymax c.2⟩

/-- The x/y coordinates of a labeled point. -/
def ptCoord (p : ℚ × ℚ × String) : ℚ × ℚ := (p.1, p.2.1)

/-- The bounding-box computation: the seed comes from `points[0]` (so an
empty points list is a crash, `Err.emptyInput`), then min/max is folded over
every point and then over every polygon vertex. -/
def computeBox (pts : List (ℚ × ℚ × String)) (polys : List (List (ℚ × ℚ))) :
    Except Err Box :=
  match pts with
  | [] => .error .emptyInput
  | (x0, y0, _) :: _ =>
    let b1 := pts.foldl (fun b p => boxStep b (ptCoord p)) ⟨x0, x0, y0, y0⟩
    let b2 := polys.foldl (fun b poly => poly.foldl boxStep b) b1
    .ok b2

/-- The shift/scale transform: `x_shift, x_scale, y_shift, y_scale`. -/
structure Transform where
  xshift : ℚ
  xscale : ℚ
  yshift : ℚ
  yscale : ℚ
deriving DecidableEq

/-- Python float division: raises `ZeroDivisionError` on a zero divisor. -/
def fdiv (a b : ℚ) : Except Err ℚ :=
  if b = 0 then .error .zeroDivision else .ok (a / b)

/-- The transform builder: shift is the box center per axis, scale is
`(MAP_SIZE - MARGIN) / (axis_max - axis_min)` computed with Python division
(the x division runs before the y division). -/
def buildTransform (b : Box) : Except Err Transform :=
  match fdiv (MAP_SIZE - MARGIN) (b.xmax - b.xmin) with
  | .error e => .error e
  | .ok xs =>
    match fdiv (MAP_SIZE - MARGIN) (b.ymax - b.ymin) with
    | .error e => .error e
    | .ok ys => .ok ⟨(b.xmax + b.xmin) / 2, xs, (b.ymax + b.ymin) / 2, ys⟩

/-- Transformed x coordinate: `x_scale * (x - x_shift)`. -/
def tx (t : Transform) (x : ℚ) : ℚ := t.xscale * (x - t.xshift)

/-- Transformed y coordinate: `y_scale * (y - y_shift)`. -/
def ty (t : Transform) (y : ℚ) : ℚ := t.yscale * (y - t.yshift)

/-- One output line: a point record, the opening marker of a polygon block, a
vertex literal, or the closing marker. -/
inductive Line where
  | pointLine (name : String) (x y : ℚ)
  | polyOpenLine
  | vertexLine (x y : ℚ)
  | polyCloseLine
deriving DecidableEq

/-- The block emitted for one polygon: opening marker, one vertex line per
retained vertex in order, closing marker. -/
def emitPolygon (t : Transform) (poly : List (ℚ × ℚ)) : List Line :=
  Line.polyOpenLine ::
    poly.map (fun c => Line.vertexLine (tx t c.1) (ty t c.2)) ++ [Line.polyCloseLine]

/-- The emitter: one line per point in order, then one block per polygon in
order. -/
def emit (t : Transform) (pts : List (ℚ × ℚ × String))
    (polys : List (List (ℚ × ℚ))) : List Line :=
  pts.map (fun p => Line.pointLine p.2.2 (tx t p.1) (ty t p.2.1)) ++
    polys.flatMap (emitPolygon t)

/-- The whole run of `main`: parse, bounding box, transform, emit; any raised
exception aborts the run with no output. -/
def mainRun (features : List Feature) : Except Err (List Line) :=
  match parseFeatures features with
  | .error e => .error e
  | .ok (pts, polys) =>
    match computeBox pts polys with
    | .error e => .error e
    | .ok b =>
      match buildTransform b with
      | .error e => .error e
      | .ok t => .ok (emit t pts polys)

/-- The x/y pairs of all points followed by all polygon vertices. -/
def allCoords (pts : List (ℚ × ℚ × String)) (polys : List (List (ℚ × ℚ))) :
    List (ℚ × ℚ) :=
  pts.map ptCoord ++ polys.flatten

/-- The scenario input of the spec: one point `(10, 10)` named `A` and one
closed square-triangle ring `[(0,0), (20,0), (20,20), (0,0)]`. -/
def c1Features : List Feature :=
  [⟨.point [10, 10], some "A"⟩,
   ⟨.polygon [[[0, 0], [20, 0], [20, 20], [0, 0]]], none⟩]

/-- C1: on the scenario input, parsing yields the point and the three open
vertices, the bounding box is `x:[0,20], y:[0,20]`, the shift is `(10,10)`
and the scale `(47.5, 47.5)`, point `A` transforms to `(0,0)`, and the output
holds exactly the three transformed vertices `(-475,-475), (475,-475),
(475,475)` in order, the closing point dropped. -/
theorem c1_scenario :
    parseFeatures c1Features =
      .ok ([(10, 10, "A")], [[(0, 0), (20, 0), (20, 20)]]) ∧
    computeBox [(10, 10, "A")] [[(0, 0), (20, 0), (20, 20)]] =
      .ok ⟨0, 20, 0, 20⟩ ∧
    buildTransform ⟨0, 20, 0, 20⟩ = .ok ⟨10, 95 / 2, 10, 95 / 2⟩ ∧
    mainRun c1Features =
      .ok [Line.pointLine "A" 0 0,
           Line.polyOpenLine,
           Line.vertexLine (-475) (-475),
           Line.vertexLine 475 (-475),
           Line.vertexLine 475 475,
           Line.polyCloseLine] := by
  refine ⟨?_, ?_, ?_, ?_⟩ <;>
    norm_num [mainRun, parseFeatures, classify, mapGetV, getV, computeBox,
      boxStep, ptCoord, buildTransform, fdiv, emit, emitPolygon, tx, ty,
      c1Features, MAP_SIZE, MARGIN]

/-- Membership of a coordinate pair in a box. -/
def inBox (b : Box) (c : ℚ × ℚ) : Prop :=
  b.xmin ≤ c.1 ∧ c.1 ≤ b.xmax ∧ b.ymin ≤ c.2 ∧ c.2 ≤ b.ymax

lemma inBox_boxStep_self (b : Box) (c : ℚ × ℚ) : inBox (boxStep b c) c :=
  ⟨min_le_right _ _, le_max_right _ _, min_le_right _ _, le_max_right _ _⟩

lemma inBox_boxStep_mono {b : Box} {c : ℚ × ℚ} (c' : ℚ × ℚ) (h : inBox b c) :
    inBox (boxStep b c') c :=
  ⟨le_trans (min_le_left _ _) h.1, le_trans h.2.1 (le_max_left _ _),
   le_trans (min_le_left _ _) h.2.2.1, le_trans h.2.2.2 (le_max_left _ _)⟩

lemma inBox_foldl_mono {b : Box} {c : ℚ × ℚ} (cs : List (ℚ × ℚ)) (h : inBox b c) :
    inBox (cs.foldl boxStep b) c := by
  induction cs generalizing b with
  | nil => exact h
  | cons a l ih => exact ih (inBox_boxStep_mono a h)

lemma inBox_foldl_mem (cs : List (ℚ × ℚ)) (b : Box) :
    ∀ c ∈ cs, inBox (cs.foldl boxStep b) c := by
  induction cs generalizing b with
  | nil => intro c hc; cases hc
  | cons a l ih =>
    intro c hc
    rcases List.mem_cons.mp hc with rfl | hc
    · exact inBox_foldl_mono l (inBox_boxStep_self b c)
    · exact ih (boxStep b a) c hc

lemma foldl_boxStep_xmin (cs : List (ℚ × ℚ)) (b : Box) :
    (cs.foldl boxStep b).xmin = b.xmin ∨ ∃ c ∈ cs, (cs.foldl boxStep b).xmin = c.1 := by
  induction cs generalizing b with
  | nil => exact .inl rfl
  | cons a l ih =>
    rw [List.foldl_cons]
    rcases ih (boxStep b a) with h | ⟨c, hc, h⟩
    · rcases min_cases b.xmin a.1 with ⟨he, _⟩ | ⟨he, _⟩
      · exact .inl (by rw [h, boxStep, he])
      · exact .inr ⟨a, List.mem_cons_self _ _, by rw [h, boxStep, he]⟩
    · exact .inr ⟨c, List.mem_cons_of_mem _ hc, h⟩

lemma foldl_boxStep_xmax (cs : List (ℚ × ℚ)) (b : Box) :
    (cs.foldl boxStep b).xmax = b.xmax ∨ ∃ c ∈ cs, (cs.foldl boxStep b).xmax = c.1 := by
  induction cs generalizing b with
  | nil => exact .inl rfl
  | cons a l ih =>
    rw [List.foldl_cons]
    rcases ih (boxStep b a) with h | ⟨c, hc, h⟩
    · rcases max_cases b.xmax a.1 with ⟨he, _⟩ | ⟨he, _⟩
      · exact .inl (by rw [h, boxStep, he])
      · exact .inr ⟨a, List.mem_cons_self _ _, by rw [h, boxStep, he]⟩
    · exact .inr ⟨c, List.mem_cons_of_mem _ hc, h⟩

lemma foldl_boxStep_ymin (cs : List (ℚ × ℚ)) (b : Box) :
    (cs.foldl boxStep b).ymin = b.ymin ∨ ∃ c ∈ cs, (cs.foldl boxStep b).ymin = c.2 := by
  induction cs generalizing b with
  | nil => exact .inl rfl
  | cons a l ih =>
    rw [List.foldl_cons]
    rcases ih (boxStep b a) with h | ⟨c, hc, h⟩
    · rcases min_cases b.ymin a.2 with ⟨he, _⟩ | ⟨he, _⟩
      · exact .inl (by rw [h, boxStep, he])
      · exact .inr ⟨a, List.mem_cons_self _ _, by rw [h, boxStep, he]⟩
    · exact .inr ⟨c, List.mem_cons_of_mem _ hc, h⟩

lemma foldl_boxStep_ymax (cs : List (ℚ × ℚ)) (b : Box) :
    (cs.foldl boxStep b).ymax = b.ymax ∨ ∃ c ∈ cs, (cs.foldl boxStep b).ymax = c.2 := by
  induction cs generalizing b with
  | nil => exact .inl rfl
  | cons a l ih =>
    rw [List.foldl_cons]
    rcases ih (boxStep b a) with h | ⟨c, hc, h⟩
    · rcases max_cases b.ymax a.2 with ⟨he, _⟩ | ⟨he, _⟩
      · exact .inl (by rw [h, boxStep, he])
      · exact .inr ⟨a, List.mem_cons_self _ _, by rw [h, boxStep, he]⟩
    · exact .inr ⟨c, List.mem_cons_of_mem _ hc, h⟩

lemma computeBox_eq_foldl (p0 : ℚ × ℚ × String) (rest : List (ℚ × ℚ × String))
    (polys : List (List (ℚ × ℚ))) :
    computeBox (p0 :: rest) polys =
      .ok ((allCoords (p0 :: rest) polys).foldl boxStep
        ⟨(ptCoord p0).1, (ptCoord p0).1, (ptCoord p0).2, (ptCoord p0).2⟩) := by
  obtain ⟨x0, y0, nm⟩ := p0
  rw [allCoords, List.foldl_append, List.foldl_map, List.foldl_flatten]
  rfl

lemma computeBox_bounds (pts : List (ℚ × ℚ × String)) (polys : List (List (ℚ × ℚ)))
    (b : Box) (h : computeBox pts polys = .ok b) :
    (∀ c ∈ allCoords pts polys, inBox b c) ∧
    (∃ c ∈ allCoords pts polys, b.xmin = c.1) ∧
    (∃ c ∈ allCoords pts polys, b.xmax = c.1) ∧
    (∃ c ∈ allCoords pts polys, b.ymin = c.2) ∧
    (∃ c ∈ allCoords pts polys, b.ymax = c.2) := by
  cases pts with
  | nil => simp [computeBox] at h
  | cons p0 rest =>
    rw [computeBox_eq_foldl] at h
    have hb : b = (allCoords (p0 :: rest) polys).foldl boxStep
        ⟨(ptCoord p0).1, (ptCoord p0).1, (ptCoord p0).2, (ptCoord p0).2⟩ :=
      (Except.ok.inj h).symm
    have hmem : ptCoord p0 ∈ allCoords (p0 :: rest) polys := by
      rw [allCoords]
      exact List.mem_append_left _ (List.mem_map_of_mem ptCoord (List.mem_cons_self _ _))
    subst hb
    refine ⟨inBox_foldl_mem _ _, ?_, ?_, ?_, ?_⟩
    · rcases foldl_boxStep_xmin (allCoords (p0 :: rest) polys)
        ⟨(ptCoord p0).1, (ptCoord p0).1, (ptCoord p0).2, (ptCoord p0).2⟩ with he | ⟨c, hc, he⟩
      · exact ⟨ptCoord p0, hmem, he⟩
      · exact ⟨c, hc, he⟩
    · rcases foldl_boxStep_xmax (allCoords (p0 :: rest) polys)
        ⟨(ptCoord p0).1, (ptCoord p0).1, (ptCoord p0).2, (ptCoord p0).2⟩ with he | ⟨c, hc, he⟩
      · exact ⟨ptCoord p0, hmem, he⟩
      · exact ⟨c, hc, he⟩
    · rcases foldl_boxStep_ymin (allCoords (p0 :: rest) polys)
        ⟨(ptCoord p0).1, (ptCoord p0).1, (ptCoord p0).2, (ptCoord p0).2⟩ with he | ⟨c, hc, he⟩
      · exact ⟨ptCoord p0, hmem, he⟩
      · exact ⟨c, hc, he⟩
    · rcases foldl_boxStep_ymax (allCoords (p0 :: rest) polys)
        ⟨(ptCoord p0).1, (ptCoord p0).1, (ptCoord p0).2, (ptCoord p0).2⟩ with he | ⟨c, hc, he⟩
      · exact ⟨ptCoord p0, hmem, he⟩
      · exact ⟨c, hc, he⟩

lemma buildTransform_ok (b : Box) (hx : b.xmin < b.xmax) (hy : b.ymin < b.ymax) :
    buildTransform b =
      .ok ⟨(b.xmax + b.xmin) / 2, (MAP_SIZE - MARGIN) / (b.xmax - b.xmin),
           (b.ymax + b.ymin) / 2, (MAP_SIZE - MARGIN) / (b.ymax - b.ymin)⟩ := by
  have hx0 : b.xmax - b.xmin ≠ 0 := sub_ne_zero.mpr (ne_of_gt hx)
  have hy0 : b.ymax - b.ymin ≠ 0 := sub_ne_zero.mpr (ne_of_gt hy)
  simp [buildTransform, fdiv, hx0, hy0]

lemma scale_bound (m M x : ℚ) (hlt : m < M) (h1 : m ≤ x) (h2 : x ≤ M) :
    |(MAP_SIZE - MARGIN) / (M - m) * (x - (M + m) / 2)| ≤ (MAP_SIZE - MARGIN) / 2 := by
  have hd : (0 : ℚ) < M - m := sub_pos.mpr hlt
  have hnum : (0 : ℚ) ≤ MAP_SIZE - MARGIN := by norm_num [MAP_SIZE, MARGIN]
  have hs : (0 : ℚ) ≤ (MAP_SIZE - MARGIN) / (M - m) := div_nonneg hnum hd.le
  rw [abs_mul, abs_of_nonneg hs]
  have hxb : |x - (M + m) / 2| ≤ (M - m) / 2 := by
    rw [abs_le]; constructor <;> linarith
  calc (MAP_SIZE - MARGIN) / (M - m) * |x - (M + m) / 2|
      ≤ (MAP_SIZE - MARGIN) / (M - m) * ((M - m) / 2) :=
        mul_le_mul_of_nonneg_left hxb hs
    _ = (MAP_SIZE - MARGIN) / 2 := by
        field_simp

lemma scale_at_max (m M : ℚ) (hlt : m < M) :
    (MAP_SIZE - MARGIN) / (M - m) * (M - (M + m) / 2) = (MAP_SIZE - MARGIN) / 2 := by
  have hd : M - m ≠ 0 := sub_ne_zero.mpr (ne_of_gt hlt)
  field_simp
  ring

lemma scale_at_min (m M : ℚ) (hlt : m < M) :
    (MAP_SIZE - MARGIN) / (M - m) * (m - (M + m) / 2) = -((MAP_SIZE - MARGIN) / 2) := by
  have hd : M - m ≠ 0 := sub_ne_zero.mpr (ne_of_gt hlt)
  field_simp
  ring

/-- The coordinate pairs held by one output line. -/
def lineCoords : Line → List (ℚ × ℚ)
  | .pointLine _ x y => [(x, y)]
  | .vertexLine x y => [(x, y)]
  | _ => []

/-- All coordinate pairs appearing in the output, in order. -/
def outCoords (ls : List Line) : List (ℚ × ℚ) := ls.flatMap lineCoords

lemma flatMap_lineCoords_vertexLines (t : Transform) (q : List (ℚ × ℚ)) :
    (q.map (fun c => Line.vertexLine (tx t c.1) (ty t c.2))).flatMap lineCoords =
      q.map (fun c => (tx t c.1, ty t c.2)) := by
  induction q with
  | nil => rfl
  | cons v vq ih => simp [lineCoords, ih]

lemma flatMap_lineCoords_block (t : Transform) (q : List (ℚ × ℚ)) :
    (emitPolygon t q).flatMap lineCoords = q.map (fun c => (tx t c.1, ty t c.2)) := by
  rw [emitPolygon, List.flatMap_append]
  simp [lineCoords, flatMap_lineCoords_vertexLines]

lemma flatMap_lineCoords_pointLines (t : Transform) (pts : List (ℚ × ℚ × String)) :
    (pts.map (fun p => Line.pointLine p.2.2 (tx t p.1) (ty t p.2.1))).flatMap lineCoords =
      (pts.map ptCoord).map (fun c => (tx t c.1, ty t c.2)) := by
  induction pts with
  | nil => rfl
  | cons p l ih => simp [lineCoords, ih, ptCoord]

lemma flatMap_lineCoords_blocks (t : Transform) (polys : List (List (ℚ × ℚ))) :
    (polys.flatMap (emitPolygon t)).flatMap lineCoords =
      polys.flatten.map (fun c => (tx t c.1, ty t c.2)) := by
  induction polys with
  | nil => rfl
  | cons q l ih =>
    simp [List.flatMap_cons, List.flatMap_append, ih, flatMap_lineCoords_block,
      List.flatten_cons]

lemma outCoords_emit (t : Transform) (pts : List (ℚ × ℚ × String))
    (polys : List (List (ℚ × ℚ))) :
    outCoords (emit t pts polys) =
      (allCoords pts polys).map (fun c => (tx t c.1, ty t c.2)) := by
  unfold outCoords emit allCoords
  rw [List.flatMap_append, List.map_append, flatMap_lineCoords_pointLines,
    flatMap_lineCoords_blocks]

/-- C2: for any run whose bounding box is non-degenerate on both axes, every
coordinate appearing in the output satisfies `|x'| <= (MAP_SIZE - MARGIN) / 2`
and `|y'| <= (MAP_SIZE - MARGIN) / 2`, and on each axis both bounds are
attained by a point or vertex lying at the corresponding extreme of the
bounding box. -/
theorem c2_extent_property (pts : List (ℚ × ℚ × String))
    (polys : List (List (ℚ × ℚ))) (b : Box) (t : Transform)
    (hb : computeBox pts polys = .ok b)
    (hx : b.xmin < b.xmax) (hy : b.ymin < b.ymax)
    (ht : buildTransform b = .ok t) :
    (∀ c ∈ outCoords (emit t pts polys),
        |c.1| ≤ (MAP_SIZE - MARGIN) / 2 ∧ |c.2| ≤ (MAP_SIZE - MARGIN) / 2) ∧
    (∃ c ∈ allCoords pts polys, c.1 = b.xmin ∧ tx t c.1 = -((MAP_SIZE - MARGIN) / 2)) ∧
    (∃ c ∈ allCoords pts polys, c.1 = b.xmax ∧ tx t c.1 = (MAP_SIZE - MARGIN) / 2) ∧
    (∃ c ∈ allCoords pts polys, c.2 = b.ymin ∧ ty t c.2 = -((MAP_SIZE - MARGIN) / 2)) ∧
    (∃ c ∈ allCoords pts polys, c.2 = b.ymax ∧ ty t c.2 = (MAP_SIZE - MARGIN) / 2) := by
  have hbt := buildTransform_ok b hx hy
  rw [ht] at hbt
  have ht' := Except.ok.inj hbt
  subst ht'
  obtain ⟨hall, ⟨cxm, hcxm, hexm⟩, ⟨cxM, hcxM, hexM⟩, ⟨cym, hcym, heym⟩, ⟨cyM, hcyM, heyM⟩⟩ :=
    computeBox_bounds pts polys b hb
  refine ⟨?_, ?_, ?_, ?_, ?_⟩
  · intro c hc
    rw [outCoords_emit] at hc
    obtain ⟨c0, hc0, rfl⟩ := List.mem_map.mp hc
    obtain ⟨h1, h2, h3, h4⟩ := hall c0 hc0
    exact ⟨scale_bound b.xmin b.xmax c0.1 hx h1 h2,
           scale_bound b.ymin b.ymax c0.2 hy h3 h4⟩
  · exact ⟨cxm, hcxm, hexm.symm, by rw [tx, ← hexm]; exact scale_at_min b.xmin b.xmax hx⟩
  · exact ⟨cxM, hcxM, hexM.symm, by rw [tx, ← hexM]; exact scale_at_max b.xmin b.xmax hx⟩
  · exact ⟨cym, hcym, heym.symm, by rw [ty, ← heym]; exact scale_at_min b.ymin b.ymax hy⟩
  · exact ⟨cyM, hcyM, heyM.symm, by rw [ty, ← heyM]; exact scale_at_max b.ymin b.ymax hy⟩

/-- Parsed points of the scenario input, used as witness data. -/
def wPts : List (ℚ × ℚ × String) := [(10, 10, "A")]

/-- Parsed polygons of the scenario input, used as witness data. -/
def wPolys : List (List (ℚ × ℚ)) := [[(0, 0), (20, 0), (20, 20)]]

/-- Bounding box of the scenario input, used as witness data. -/
def wBox : Box := ⟨0, 20, 0, 20⟩

/-- Transform of the scenario input, used as witness data. -/
def wT : Transform := ⟨10, 95 / 2, 10, 95 / 2⟩

/-- Witness for C2, instantiated on the scenario collections. -/
theorem c2_extent_witness :
    (∀ c ∈ outCoords (emit wT wPts wPolys),
        |c.1| ≤ (MAP_SIZE - MARGIN) / 2 ∧ |c.2| ≤ (MAP_SIZE - MARGIN) / 2) ∧
    (∃ c ∈ allCoords wPts wPolys, c.1 = wBox.xmin ∧ tx wT c.1 = -((MAP_SIZE - MARGIN) / 2)) ∧
    (∃ c ∈ allCoords wPts wPolys, c.1 = wBox.xmax ∧ tx wT c.1 = (MAP_SIZE - MARGIN) / 2) ∧
    (∃ c ∈ allCoords wPts wPolys, c.2 = wBox.ymin ∧ ty wT c.2 = -((MAP_SIZE - MARGIN) / 2)) ∧
    (∃ c ∈ allCoords wPts wPolys, c.2 = wBox.ymax ∧ ty wT c.2 = (MAP_SIZE - MARGIN) / 2) :=
  c2_extent_property wPts wPolys wBox wT
    (by norm_num [computeBox, boxStep, ptCoord, wPts, wPolys, wBox, min_def, max_def])
    (by norm_num [wBox]) (by norm_num [wBox])
    (by norm_num [buildTransform, fdiv, wBox, wT, MAP_SIZE, MARGIN])

/-- C3: the bounding-box center point, after transform, maps to `(0, 0)`
exactly, for any run with a non-degenerate bounding box. -/
theorem c3_center_origin (pts : List (ℚ × ℚ × String)) (polys : List (List (ℚ × ℚ)))
    (b : Box) (t : Transform)
    (hb : computeBox pts polys = .ok b)
    (hx : b.xmin < b.xmax) (hy : b.ymin < b.ymax)
    (ht : buildTransform b = .ok t) :
    tx t ((b.xmin + b.xmax) / 2) = 0 ∧ ty t ((b.ymin + b.ymax) / 2) = 0 := by
  have hbt := buildTransform_ok b hx hy
  rw [ht] at hbt
  have ht' := Except.ok.inj hbt
  subst ht'
  constructor
  · show (MAP_SIZE - MARGIN) / (b.xmax - b.xmin) * ((b.xmin + b.xmax) / 2 - (b.xmax + b.xmin) / 2) = 0
    ring
  · show (MAP_SIZE - MARGIN) / (b.ymax - b.ymin) * ((b.ymin + b.ymax) / 2 - (b.ymax + b.ymin) / 2) = 0
    ring

/-- Witness for C3, instantiated on the scenario collections. -/
theorem c3_center_witness :
    tx wT ((wBox.xmin + wBox.xmax) / 2) = 0 ∧ ty wT ((wBox.ymin + wBox.ymax) / 2) = 0 :=
  c3_center_origin wPts wPolys wBox wT
    (by norm_num [computeBox, boxStep, ptCoord, wPts, wPolys, wBox, min_def, max_def])
    (by norm_num [wBox]) (by norm_num [wBox])
    (by norm_num [buildTransform, fdiv, wBox, wT, MAP_SIZE, MARGIN])

/-- Degenerate input: a single point, so both axis ranges are zero. -/
def c4Features : List Feature := [⟨.point [5, 5], some "A"⟩]

/-- C4 counterexample: on an input with a zero-range bounding box the
reference does not propagate an infinite scale into output; the division
raises (Python `ZeroDivisionError`) and the run aborts with no output. -/
theorem c4_counterexample : mainRun c4Features = .error .zeroDivision := by
  norm_num [mainRun, parseFeatures, classify, computeBox, boxStep, ptCoord,
    buildTransform, fdiv, c4Features, MAP_SIZE, MARGIN, min_def, max_def]

/-- C4 amended: for every valid input whose bounding box has zero range on an
axis, the scale division raises a zero-division error and the run aborts with
no output; no infinite scale value is computed or propagated. -/
theorem c4_degenerate_aborts (features : List Feature) (pts : List (ℚ × ℚ × String))
    (polys : List (List (ℚ × ℚ))) (b : Box)
    (hp : parseFeatures features = .ok (pts, polys))
    (hb : computeBox pts polys = .ok b)
    (hd : b.xmax = b.xmin ∨ b.ymax = b.ymin) :
    mainRun features = .error .zeroDivision := by
  rcases hd with hx | hy
  · have h0 : b.xmax - b.xmin = 0 := by rw [hx, sub_self]
    simp [mainRun, hp, hb, buildTransform, fdiv, h0]
  · have h0 : b.ymax - b.ymin = 0 := by rw [hy, sub_self]
    rcases eq_or_ne (b.xmax - b.xmin) 0 with hx0 | hx0
    · simp [mainRun, hp, hb, buildTransform, fdiv, hx0]
    · simp [mainRun, hp, hb, buildTransform, fdiv, hx0, h0]

/-- Witness for the amended C4, instantiated on the single-point input. -/
theorem c4_degenerate_witness : mainRun c4Features = .error .zeroDivision :=
  c4_degenerate_aborts c4Features [(5, 5, "A")] [] ⟨5, 5, 5, 5⟩
    (by norm_num [parseFeatures, classify, c4Features])
    (by norm_num [computeBox, boxStep, ptCoord, min_def, max_def])
    (.inl rfl)

/-- C5: when the parsed points collection is empty, even with polygon
features present, the bounding-box seed `points[0]` is undefined and the run
crashes with `Err.emptyInput`, producing no output. -/
theorem c5_empty_points_crash (features : List Feature)
    (polys : List (List (ℚ × ℚ)))
    (hp : parseFeatures features = .ok ([], polys)) :
    mainRun features = .error .emptyInput := by
  simp [mainRun, hp, computeBox]

/-- Polygon-only input, used as witness data for the empty-points crash. -/
def c5Features : List Feature :=
  [⟨.polygon [[[0, 0], [20, 0], [20, 20], [0, 0]]], none⟩]

/-- Witness for C5: the polygon-only input crashes with `Err.emptyInput`. -/
theorem c5_empty_points_witness : mainRun c5Features = .error .emptyInput :=
  c5_empty_points_crash c5Features [[(0, 0), (20, 0), (20, 20)]]
    (by norm_num [parseFeatures, classify, mapGetV, getV, c5Features, List.getLast?])

lemma parseFeatures_append_error (pre l : List Feature)
    (pts : List (ℚ × ℚ × String)) (polys : List (List (ℚ × ℚ))) (e : Err)
    (h : parseFeatures pre = .ok (pts, polys)) (hl : parseFeatures l = .error e) :
    parseFeatures (pre ++ l) = .error e := by
  induction pre generalizing pts polys with
  | nil => simpa using hl
  | cons f fs ih =>
    rw [List.cons_append]
    cases hc : classify f with
    | error e' => simp [parseFeatures, hc] at h
    | ok item =>
      cases hp : parseFeatures fs with
      | error e' => simp [parseFeatures, hc, hp] at h
      | ok v => simp [parseFeatures, hc, ih v.1 v.2 (by rw [hp]), hl]

/-- C6: a feature whose geometry type is neither Point nor Polygon makes the
parser fail with the unsupported-geometry error naming the offending type,
and the whole run aborts with that error, whatever features follow. -/
theorem c6_unsupported_geometry (pre rest : List Feature) (t : String)
    (nm : Option String) (pts : List (ℚ × ℚ × String))
    (polys : List (List (ℚ × ℚ)))
    (hpre : parseFeatures pre = .ok (pts, polys)) :
    parseFeatures (pre ++ ⟨.other t, nm⟩ :: rest) = .error (.unsupportedGeometry t) ∧
    mainRun (pre ++ ⟨.other t, nm⟩ :: rest) = .error (.unsupportedGeometry t) := by
  have hl : parseFeatures (⟨.other t, nm⟩ :: rest) = .error (.unsupportedGeometry t) := by
    simp [parseFeatures, classify]
  have h := parseFeatures_append_error pre _ pts polys _ hpre hl
  exact ⟨h, by simp [mainRun, h]⟩

/-- Witness for C6: a LineString feature after a point feature aborts the
whole run with the unsupported-geometry error naming LineString. -/
theorem c6_unsupported_witness :
    parseFeatures ([⟨.point [1, 2], some "B"⟩] ++ ⟨.other "LineString", none⟩ :: []) =
      .error (.unsupportedGeometry "LineString") ∧
    mainRun ([⟨.point [1, 2], some "B"⟩] ++ ⟨.other "LineString", none⟩ :: []) =
      .error (.unsupportedGeometry "LineString") :=
  c6_unsupported_geometry [⟨.point [1, 2], some "B"⟩] [] "LineString" none
    [(1, 2, "B")] [] (by norm_num [parseFeatures, classify])

/-- Degenerate polygon input: a closed ring of four identical coordinate
pairs, hence a single distinct vertex. -/
def c7Features : List Feature := [⟨.polygon [[[0, 0], [0, 0], [0, 0], [0, 0]]], none⟩]

/-- C7 counterexample: the ring of four identical pairs is accepted by the
parser with no `SchemaError`; it yields three identical retained vertices. -/
theorem c7_counterexample :
    parseFeatures c7Features = .ok ([], [[(0, 0), (0, 0), (0, 0)]]) := by
  norm_num [parseFeatures, classify, mapGetV, getV, c7Features, List.getLast?]

/-- The first two components of a coordinate entry (as used for entries of
length at least two). -/
def first2 (v : List ℚ) : ℚ × ℚ := (v.headD 0, v.tail.headD 0)

lemma mapGetV_ok (l : List (List ℚ)) (h : ∀ v ∈ l, 2 ≤ v.length) :
    mapGetV l = .ok (l.map first2) := by
  induction l with
  | nil => rfl
  | cons v l ih =>
    rcases v with _ | ⟨x, _ | ⟨y, rest⟩⟩
    · exact absurd (h _ (List.mem_cons_self _ _)) (by simp)
    · exact absurd (h _ (List.mem_cons_self _ _)) (by simp)
    · simp [mapGetV, getV, first2, ih (fun w hw => h w (List.mem_cons_of_mem _ hw))]

lemma classify_polygon_ok (ring : List (List ℚ)) (nm : Option String)
    (hlen : 4 ≤ ring.length) (hcl : ring.head? = ring.getLast?)
    (har : ∀ v ∈ ring.dropLast, 2 ≤ v.length) :
    classify ⟨.polygon [ring], nm⟩ = .ok (.inr (ring.dropLast.map first2)) := by
  simp [classify, hlen, hcl, mapGetV_ok ring.dropLast har]

/-- C7 amended: the parser accepts any single closed ring with at least four
coordinate entries of arity at least two, with no check of vertex
distinctness; in particular a ring of `n >= 4` copies of one entry is
accepted and yields `n - 1` identical vertices. -/
theorem c7_accepts_degenerate (v : List ℚ) (x y : ℚ) (rest : List ℚ)
    (hv : v = x :: y :: rest) (n : ℕ) (hn : 4 ≤ n) (nm : Option String) :
    parseFeatures [⟨.polygon [List.replicate n v], nm⟩] =
      .ok ([], [List.replicate (n - 1) (x, y)]) := by
  have hn0 : n ≠ 0 := by omega
  have hlen : 4 ≤ (List.replicate n v).length := by simpa using hn
  have hcl : (List.replicate n v).head? = (List.replicate n v).getLast? := by
    simp [List.head?_replicate, List.getLast?_replicate, hn0]
  have hdrop : (List.replicate n v).dropLast = List.replicate (n - 1) v := by
    simp [List.dropLast_replicate]
  have har : ∀ w ∈ (List.replicate n v).dropLast, 2 ≤ w.length := by
    intro w hw
    rw [hdrop] at hw
    rw [List.eq_of_mem_replicate hw, hv]
    simp
  have hcls := classify_polygon_ok (List.replicate n v) nm hlen hcl har
  rw [hdrop] at hcls
  have hmap : (List.replicate (n - 1) v).map first2 = List.replicate (n - 1) (x, y) := by
    rw [List.map_replicate, hv]
    rfl
  rw [hmap] at hcls
  simp [parseFeatures, hcls]

/-- Witness for the amended C7: four copies of the pair `(0, 0)` are accepted
and yield three identical vertices. -/
theorem c7_accepts_witness :
    parseFeatures [⟨.polygon [List.replicate 4 ([0, 0] : List ℚ)], none⟩] =
      .ok ([], [List.replicate (4 - 1) ((0 : ℚ), (0 : ℚ))]) :=
  c7_accepts_degenerate [0, 0] 0 0 [] rfl 4 (by norm_num) none

/-- Vertex-line recognizer. -/
def isVertexLine : Line → Bool
  | .vertexLine _ _ => true
  | _ => false

lemma mapGetV_ok_inv (l : List (List ℚ)) (vs : List (ℚ × ℚ))
    (h : mapGetV l = .ok vs) : vs = l.map first2 ∧ vs.length = l.length := by
  induction l generalizing vs with
  | nil =>
    simp only [mapGetV] at h
    cases h
    simp
  | cons v l ih =>
    cases hv : getV v with
    | error e => simp [mapGetV, hv] at h
    | ok p =>
      cases hm : mapGetV l with
      | error e => simp [mapGetV, hv, hm] at h
      | ok ps =>
        simp only [mapGetV, hv, hm] at h
        cases h
        obtain ⟨h1, h2⟩ := ih ps hm
        have hp : p = first2 v := by
          rcases v with _ | ⟨a, _ | ⟨b, w⟩⟩
          · simp [getV] at hv
          · simp [getV] at hv
          · simp only [getV] at hv
            cases hv
            rfl
        simp [hp, h1, h2, first2]

/-- C8: an accepted polygon whose single ring has `K + 1` coordinate entries
retains exactly `K` vertices, the closing entry stripped and the order of the
ring preserved, and its emitted block holds exactly `K` vertex lines, one per
retained vertex, in that order. -/
theorem c8_vertex_count (ring : List (List ℚ)) (nm : Option String) (K : ℕ)
    (vs : List (ℚ × ℚ)) (t : Transform)
    (hlen : ring.length = K + 1)
    (hclass : classify ⟨.polygon [ring], nm⟩ = .ok (.inr vs)) :
    vs = ring.dropLast.map first2 ∧ vs.length = K ∧
    emitPolygon t vs =
      Line.polyOpenLine :: vs.map (fun c => Line.vertexLine (tx t c.1) (ty t c.2)) ++
        [Line.polyCloseLine] ∧
    (emitPolygon t vs).countP isVertexLine = K := by
  by_cases h4 : 4 ≤ ring.length
  case neg => simp [classify, h4] at hclass
  by_cases hcl : ring.head? = ring.getLast?
  case neg => simp [classify, h4, hcl] at hclass
  cases hm : mapGetV ring.dropLast with
  | error e => simp [classify, h4, hcl, hm] at hclass
  | ok ps =>
    simp only [classify, h4, hcl, hm, if_true, if_pos] at hclass
    rw [Except.ok.injEq, Sum.inr.injEq] at hclass
    subst hclass
    obtain ⟨h1, h2⟩ := mapGetV_ok_inv ring.dropLast ps hm
    have hK : ps.length = K := by
      rw [h2, List.length_dropLast, hlen]
      omega
    refine ⟨h1, hK, rfl, ?_⟩
    rw [emitPolygon, List.countP_append, List.countP_cons]
    simp [isVertexLine, List.countP_map, Function.comp_def, hK]

/-- Square-triangle ring with its closing entry, used as witness data. -/
def c8Ring : List (List ℚ) := [[0, 0], [20, 0], [20, 20], [0, 0]]

/-- Witness for C8 on the four-entry closed ring. -/
theorem c8_vertex_count_witness :
    ([((0 : ℚ), (0 : ℚ)), (20, 0), (20, 20)] : List (ℚ × ℚ)) =
      c8Ring.dropLast.map first2 ∧
    ([((0 : ℚ), (0 : ℚ)), (20, 0), (20, 20)] : List (ℚ × ℚ)).length = 3 ∧
    emitPolygon wT [(0, 0), (20, 0), (20, 20)] =
      Line.polyOpenLine ::
        ([((0 : ℚ), (0 : ℚ)), (20, 0), (20, 20)] : List (ℚ × ℚ)).map
          (fun c => Line.vertexLine (tx wT c.1) (ty wT c.2)) ++
        [Line.polyCloseLine] ∧
    (emitPolygon wT [(0, 0), (20, 0), (20, 20)]).countP isVertexLine = 3 :=
  c8_vertex_count c8Ring none 3 [(0, 0), (20, 0), (20, 20)] wT
    (by norm_num [c8Ring])
    (by norm_num [classify, mapGetV, getV, c8Ring, List.getLast?])

/-- Point-line recognizer. -/
def isPointLine : Line → Bool
  | .pointLine _ _ _ => true
  | _ => false

/-- C9: in every successful run, all emitted point lines appear before every
polygon block line, however Point and Polygon features are interleaved in the
input. -/
theorem c9_points_before_polygons (features : List Feature) (out : List Line)
    (h : mainRun features = .ok out) :
    ∃ pl bl, out = pl ++ bl ∧ (∀ l ∈ pl, isPointLine l = true) ∧
      (∀ l ∈ bl, isPointLine l = false) := by
  cases hp : parseFeatures features with
  | error e => simp [mainRun, hp] at h
  | ok v =>
    obtain ⟨pts, polys⟩ := v
    cases hb : computeBox pts polys with
    | error e => simp [mainRun, hp, hb] at h
    | ok b =>
      cases ht : buildTransform b with
      | error e => simp [mainRun, hp, hb, ht] at h
      | ok t =>
        simp only [mainRun, hp, hb, ht] at h
        rw [Except.ok.injEq] at h
        refine ⟨pts.map (fun p => Line.pointLine p.2.2 (tx t p.1) (ty t p.2.1)),
          polys.flatMap (emitPolygon t), by rw [← h]; rfl, ?_, ?_⟩
        · intro l hl
          obtain ⟨p, _, rfl⟩ := List.mem_map.mp hl
          rfl
        · intro l hl
          obtain ⟨q, _, hq⟩ := List.mem_flatMap.mp hl
          rw [emitPolygon] at hq
          rcases List.mem_append.mp hq with h1 | h1
          · rcases List.mem_cons.mp h1 with rfl | h1
            · rfl
            · obtain ⟨c, _, rfl⟩ := List.mem_map.mp h1
              rfl
          · rw [List.mem_singleton] at h1
            subst h1
            rfl

/-- Interleaved input: the polygon feature comes before the point feature. -/
def c9Features : List Feature :=
  [⟨.polygon [[[0, 0], [20, 0], [20, 20], [0, 0]]], none⟩, ⟨.point [10, 10], some "A"⟩]

/-- Witness for C9 on the interleaved input. -/
theorem c9_points_before_witness :
    ∃ pl bl,
      ([Line.pointLine "A" 0 0, Line.polyOpenLine, Line.vertexLine (-475) (-475),
        Line.vertexLine 475 (-475), Line.vertexLine 475 475,
        Line.polyCloseLine] : List Line) = pl ++ bl ∧
      (∀ l ∈ pl, isPointLine l = true) ∧ (∀ l ∈ bl, isPointLine l = false) :=
  c9_points_before_polygons c9Features _
    (by norm_num [mainRun, parseFeatures, classify, mapGetV, getV, computeBox,
      boxStep, ptCoord, buildTransform, fdiv, emit, emitPolygon, tx, ty,
      c9Features, MAP_SIZE, MARGIN, min_def, max_def, List.getLast?])

/-- C10: ring coordinate entries are never validated for arity: any entry
with at least two components is accepted and only its first two components
are used, while a Point geometry with three coordinate values is rejected
with `Err.schemaError`. -/
theorem c10_vertex_arity (ring : List (List ℚ)) (nm : Option String)
    (hlen : 4 ≤ ring.length) (hcl : ring.head? = ring.getLast?)
    (har : ∀ v ∈ ring.dropLast, 2 ≤ v.length)
    (x y z : ℚ) (pn : String) :
    classify ⟨.polygon [ring], nm⟩ = .ok (.inr (ring.dropLast.map first2)) ∧
    (∀ (a b : ℚ) (r : List ℚ), first2 (a :: b :: r) = (a, b)) ∧
    classify ⟨.point [x, y, z], some pn⟩ = .error .schemaError := by
  exact ⟨classify_polygon_ok ring nm hlen hcl har, fun a b r => rfl, rfl⟩

/-- Ring whose first and last entries carry a third component, used as
witness data. -/
def c10Ring : List (List ℚ) := [[0, 0, 7], [20, 0], [20, 20], [0, 0, 7]]

/-- Witness for C10 on a ring with three-component entries. -/
theorem c10_vertex_arity_witness :
    classify ⟨.polygon [c10Ring], none⟩ = .ok (.inr (c10Ring.dropLast.map first2)) ∧
    (∀ (a b : ℚ) (r : List ℚ), first2 (a :: b :: r) = (a, b)) ∧
    classify ⟨.point [1, 2, 3], some "B"⟩ = .error .schemaError :=
  c10_vertex_arity c10Ring none (by norm_num [c10Ring])
    (by norm_num [c10Ring, List.getLast?])
    (by intro v hv; fin_cases hv <;> simp [c10Ring]) 1 2 3 "B"

end GeoJson
